import Mathlib

/-!
Verification development for the `ployresearchbot` prediction-market pipeline.

The Python sources under `bot/` are shallowly embedded here:

* machine floats are modelled by exact rationals (`ℚ`); the one genuinely
  real-valued computation (`math.log10` in `bot/ranker.py`) is modelled over
  `ℝ` with `Real.logb`;
* parsed JSON data (Python dicts coming out of `json.loads`) is modelled by
  the inductive type `JValue`;
* Python built-ins used by the sources (`float(...)`, `str.strip`,
  truthiness, `str(...)`) are modelled by the `py*` helper functions below.

Each embedded definition cites the source function it was translated from.
-/

namespace PolyBot

/-- Model of a parsed JSON value (the result of Python `json.loads`, also
covering the `None`/`bool`/`int`/`float`/`str`/`list`/`dict` values that the
bot's validators receive). -/
inductive JValue where
  | null : JValue
  | bool (b : Bool) : JValue
  | num (q : ℚ) : JValue
  | str (s : String) : JValue
  | arr (items : List JValue) : JValue
  | obj (fields : List (String × JValue)) : JValue

/-- Association lookup with Python-dict semantics: a later binding for the
same key overwrites an earlier one (`json.loads` builds a dict, where the
last duplicate key wins). -/
def assocFind (key : String) : List (String × JValue) → Option JValue
  | [] => none
  | (k, v) :: rest =>
    match assocFind key rest with
    | some v' => some v'
    | none => if k == key then some v else none

/-- `data.get(key)` on a Python dict.  Non-dict values have no keys. -/
def jGet (v : JValue) (key : String) : Option JValue :=
  match v with
  | .obj fields => assocFind key fields
  | _ => none

/-- Python truthiness (`bool(v)`) of a JSON value. -/
def pyTruthy (v : JValue) : Bool :=
  match v with
  | .null => false
  | .bool b => b
  | .num q => q != 0
  | .str s => s != ""
  | .arr items => !items.isEmpty
  | .obj fields => !fields.isEmpty

/-- Python `str(v)`.  Faithful on strings, booleans and `None`; numbers and
containers are rendered schematically (no claim in this development depends
on the rendering of a non-string scalar). -/
def pyStr (v : JValue) : String :=
  match v with
  | .str s => s
  | .bool true => "True"
  | .bool false => "False"
  | .null => "None"
  | .num q => toString q
  | .arr _ => "[...]"
  | .obj _ => "\x7b...\x7d"

/-- The whitespace test used by Python `str.strip()`. -/
def isWs (c : Char) : Bool := c.isWhitespace

/-- `str.strip()` on the underlying character list: drop whitespace from both
ends. -/
def stripChars (l : List Char) : List Char :=
  (l.dropWhile isWs).rdropWhile isWs

/-- Python `str.strip()`. -/
def pyStrip (s : String) : String := ⟨stripChars s.data⟩

/-- Python `str.lower()` (ASCII-faithful, which covers every string the bot
compares case-insensitively). -/
def pyLower (s : String) : String := ⟨s.data.map Char.toLower⟩

/-- Split a character list at the first character satisfying `p`; the
separator itself is consumed. -/
def splitFirst (p : Char → Bool) : List Char → List Char × Option (List Char)
  | [] => ([], none)
  | c :: r =>
    if p c then ([], some r)
    else
      let (a, b) := splitFirst p r
      (c :: a, b)

/-- Numeric value of a decimal digit. -/
def digitVal (c : Char) : ℕ := c.toNat - '0'.toNat

/-- Integer value of a non-empty all-digit character list. -/
def parseDigits (l : List Char) : Option ℕ :=
  if l ≠ [] ∧ l.all Char.isDigit then
    some (l.foldl (fun acc c => 10 * acc + digitVal c) 0)
  else none

/-- Fractional value of an all-digit character list read after a decimal
point. -/
def fracVal (l : List Char) : ℚ :=
  l.foldr (fun c acc => ((digitVal c : ℚ) + acc) / 10) 0

/-- Strip an optional leading sign, returning the sign factor. -/
def splitSign : List Char → ℚ × List Char
  | '+' :: r => (1, r)
  | '-' :: r => (-1, r)
  | l => (1, l)

/-- Parse the mantissa `digits[.digits]` (at least one digit overall). -/
def parseMantissa (l : List Char) : Option ℚ :=
  let (ip, fp) := splitFirst (fun c => c = '.') l
  match fp with
  | none => (parseDigits ip).map (fun n => (n : ℚ))
  | some f =>
    if ip = [] ∧ f = [] then none
    else if ip.all Char.isDigit ∧ f.all Char.isDigit then
      some ((ip.foldl (fun acc c => 10 * acc + digitVal c) 0 : ℕ) + fracVal f)
    else none

/-- Model of Python `float(string)` on finite decimal literals: optional
surrounding whitespace, optional sign, `digits[.digits]`, optional exponent.
IEEE specials (`inf`, `nan`) are not representable in `ℚ` and are treated as
a parse failure; in the embedded code every such value is rejected by the
range checks that follow the conversion, so no claim distinguishes the two.
The conversion is exact where Python rounds to the nearest double. -/
def parseFloat (s : String) : Option ℚ :=
  let l := stripChars s.data
  let (sign, l) := splitSign l
  let (mant, expo) := splitFirst (fun c => c = 'e' ∨ c = 'E') l
  match parseMantissa mant with
  | none => none
  | some m =>
    match expo with
    | none => some (sign * m)
    | some e =>
      let (esign, ed) := splitSign e
      match parseDigits ed with
      | none => none
      | some n =>
        some (sign * m * (10 : ℚ) ^ (if esign < 0 then -(n : ℤ) else (n : ℤ)))

/-- Python exception kinds that the embedded code distinguishes in its
`except` clauses. -/
inductive PyErr where
  | valueError : PyErr
  | typeError : PyErr
deriving DecidableEq

/-- Python `float(v)` on an arbitrary value: numbers pass through, booleans
coerce to `0/1` (`bool` is an `int` subclass), strings are parsed
(`ValueError` on failure), every other type raises `TypeError`. -/
def pyFloatE (v : JValue) : Except PyErr ℚ :=
  match v with
  | .num q => .ok q
  | .bool b => .ok (if b then 1 else 0)
  | .str s =>
    match parseFloat s with
    | some q => .ok q
    | none => .error .valueError
  | _ => .error .typeError

/-- Python `float(v)` where only success matters. -/
def pyFloat (v : JValue) : Option ℚ := (pyFloatE v).toOption

/-! ### Data model (`bot/models.py`) -/

/-- `bot/models.py::Market`.  Datetimes are modelled as epoch seconds in `ℚ`;
`days = (end_date - now).total_seconds() / 86400.0` becomes
`(endDate - now) / 86400`. -/
structure Market where
  id : String
  title : String
  description : String
  probability : ℚ
  liquidity : ℚ
  endDate : Option ℚ
  slug : String := ""
  category : String := ""
  volume24h : ℚ := 0
deriving DecidableEq

/-- `bot/models.py::Decision`. -/
structure Decision where
  marketId : String
  estimatedProbability : ℚ
  confidenceLevel : ℚ
  edge : ℚ
  decision : String
  keyRisks : List String
  reasoningSummary : String
  createdAt : ℚ
deriving DecidableEq

/-! ### Filter agent (`bot/filter_agent.py`) -/

/-- `bot/filter_agent.py::FilterDecision`. -/
structure FilterDecision where
  marketId : String
  researchWorthy : Bool
  priorityLevel : String
  reasoningSummary : String
  infoDependencyScore : ℚ
  efficiencyRiskScore : ℚ
  randomnessRiskScore : ℚ
deriving DecidableEq

/-- Substring containment on character lists (Python `needle in haystack`). -/
def hasSub (needle : List Char) : List Char → Bool
  | [] => needle.isEmpty
  | c :: r => needle.isPrefixOf (c :: r) || hasSub needle r

/-- Python `keyword in text` for strings. -/
def kwInText (kw text : String) : Bool := hasSub kw.data text.data

/-- `sum(1 for keyword in keywords if keyword in text)`. -/
def countKw (keywords : List String) (text : String) : ℕ :=
  (keywords.filter (fun kw => kwInText kw text)).length

/-- The `f"{title_lower} {description_lower} {category_lower}"` text that the
keyword scorers scan. -/
def filterText (m : Market) : String :=
  pyLower m.title ++ " " ++ pyLower m.description ++ " " ++ pyLower m.category

/-- High information-dependence keywords (`filter_agent.py` lines 153-161). -/
def highInfoKeywords : List String :=
  ["election", "vote", "poll", "candidate", "president", "senate", "congress",
   "policy", "regulation", "fda", "sec", "approval", "decision", "announcement",
   "earnings", "revenue", "profit", "quarterly", "financial",
   "launch", "release", "product", "feature", "update",
   "trial", "court", "lawsuit", "verdict", "ruling",
   "economic", "gdp", "inflation", "unemployment", "rate",
   "sports", "game", "match", "tournament", "championship"]

/-- Low information-dependence keywords (`filter_agent.py` lines 164-167). -/
def lowInfoKeywords : List String :=
  ["coin", "flip", "dice", "random", "lottery", "draw",
   "instant", "immediate", "second", "minute"]

/-- `bot/filter_agent.py::_score_information_dependence`. -/
def scoreInformationDependence (now : ℚ) (m : Market) : ℚ :=
  let text := filterText m
  let highInfoCount := countKw highInfoKeywords text
  let lowInfoCount := countKw lowInfoKeywords text
  let baseScore : ℚ :=
    if highInfoCount > 0 ∧ lowInfoCount = 0 then 0.8
    else if highInfoCount > 0 then 0.6
    else if lowInfoCount > 0 then 0.2
    else 0.5
  let timeBonus : ℚ :=
    match m.endDate with
    | some ed =>
      if ed > now then
        let days := (ed - now) / 86400
        if days ≥ 7 then 0.1 else if days ≥ 3 then 0.05 else -0.1
      else -0.2
    | none => 0
  let probBonus : ℚ :=
    if 0.1 ≤ m.probability ∧ m.probability ≤ 0.9 then 0.05 else 0
  max 0 (min 1 (baseScore + timeBonus + probBonus))

/-- High accessibility keywords (`filter_agent.py` lines 237-243). -/
def highAccessKeywords : List String :=
  ["official", "announcement", "press", "release", "statement",
   "public", "government", "federal", "state", "agency",
   "company", "corporation", "earnings", "report",
   "election", "poll", "survey", "data",
   "news", "media", "coverage"]

/-- Low accessibility keywords (`filter_agent.py` lines 246-249). -/
def lowAccessKeywords : List String :=
  ["insider", "private", "confidential", "secret",
   "internal", "leak", "rumor", "speculation"]

/-- `bot/filter_agent.py::_score_information_accessibility`. -/
def scoreInformationAccessibility (m : Market) : ℚ :=
  let text := filterText m
  let highAccessCount := countKw highAccessKeywords text
  let lowAccessCount := countKw lowAccessKeywords text
  let baseScore : ℚ :=
    if highAccessCount > 0 ∧ lowAccessCount = 0 then 0.8
    else if highAccessCount > 0 then 0.6
    else if lowAccessCount > 0 then 0.3
    else 0.5
  let liquidityBonus : ℚ :=
    if m.liquidity ≥ 10000 then 0.1 else if m.liquidity ≥ 5000 then 0.05 else 0
  let volumeBonus : ℚ :=
    if m.volume24h ≥ 1000 then 0.1 else if m.volume24h ≥ 500 then 0.05 else 0
  max 0 (min 1 (baseScore + liquidityBonus + volumeBonus))

/-- `bot/filter_agent.py::_score_market_efficiency_risk`. -/
def scoreMarketEfficiencyRisk (m : Market) : ℚ :=
  let liquidityRisk : ℚ :=
    if m.liquidity ≥ 50000 then 0.8
    else if m.liquidity ≥ 20000 then 0.6
    else if m.liquidity ≥ 10000 then 0.4
    else if m.liquidity ≥ 5000 then 0.3
    else 0.2
  let volumeRisk : ℚ :=
    if m.volume24h ≥ 5000 then 0.3
    else if m.volume24h ≥ 2000 then 0.2
    else if m.volume24h ≥ 1000 then 0.1
    else 0
  let categoryLower := pyLower m.category
  let categoryRisk : ℚ :=
    if (["crypto", "bitcoin", "ethereum"].any fun c => kwInText c categoryLower) then 0.2
    else if (["sports", "nfl", "nba", "mlb"].any fun c => kwInText c categoryLower) then 0.3
    else 0.1
  let probRisk : ℚ :=
    if 0.05 ≤ m.probability ∧ m.probability ≤ 0.95 then 0 else 0.2
  max 0 (min 1 (liquidityRisk * 0.40 + volumeRisk * 0.30 + categoryRisk * 0.20 + probRisk * 0.10))

/-- `bot/filter_agent.py::_score_time_sufficiency`. -/
def scoreTimeSufficiency (now : ℚ) (m : Market) : ℚ :=
  match m.endDate with
  | none => 0.5
  | some ed =>
    if ed ≤ now then 0
    else
      let days := (ed - now) / 86400
      if 7 ≤ days ∧ days ≤ 30 then 1
      else if 3 ≤ days ∧ days < 7 then 0.6 + (days - 3) / 4 * 0.4
      else if 30 < days ∧ days ≤ 90 then 1 - (days - 30) / 60 * 0.5
      else if 1 ≤ days ∧ days < 3 then 0.3 + (days - 1) / 2 * 0.3
      else if days > 90 then 0.4
      else 0.2

/-- Randomness keywords (`filter_agent.py` lines 411-414). -/
def randomnessKeywords : List String :=
  ["coin", "flip", "dice", "roll", "random", "lottery", "draw",
   "chance", "luck", "gamble", "bet", "instant"]

/-- `bot/filter_agent.py::_score_randomness_risk` (note: scans title and
description only, not the category). -/
def scoreRandomnessRisk (now : ℚ) (m : Market) : ℚ :=
  let text := pyLower m.title ++ " " ++ pyLower m.description
  let randomnessCount := countKw randomnessKeywords text
  let baseRisk : ℚ :=
    if randomnessCount ≥ 2 then 0.8 else if randomnessCount = 1 then 0.5 else 0.2
  let probRisk : ℚ :=
    if 0.45 ≤ m.probability ∧ m.probability ≤ 0.55 then 0.2 else 0
  let timeRisk : ℚ :=
    match m.endDate with
    | some ed =>
      if ed > now then
        let days := (ed - now) / 86400
        if days < 1 then 0.3 else if days < 3 then 0.1 else 0
      else 0
    | none => 0
  max 0 (min 1 (baseRisk + probRisk + timeRisk))

/-- Python `f"{x:.2f}"` (round-to-nearest at two decimals; the tie-breaking
of floats is immaterial to every claim). -/
def formatQ2 (q : ℚ) : String :=
  let n : ℤ := round (q * 100)
  let a := n.natAbs
  let fp := a % 100
  (if n < 0 then "-" else "") ++ toString (a / 100) ++ "." ++
    (if fp < 10 then "0" ++ toString fp else toString fp)

/-- `bot/filter_agent.py::_generate_reasoning` (the `market` argument of the
source is unused in its body and is dropped here). -/
def generateReasoning (researchScore : ℚ) (researchWorthy : Bool)
    (infoDependency infoAccessibility efficiencyRisk timeSufficiency randomnessRisk : ℚ) :
    String :=
  let reasons : List String :=
    [if researchWorthy then "Research-worthy" else "Not research-worthy"]
    ++ (if infoDependency ≥ 0.7 then ["high info dependence"]
        else if infoDependency ≤ 0.3 then ["low info dependence"] else [])
    ++ (if infoAccessibility ≥ 0.7 then ["accessible information"]
        else if infoAccessibility ≤ 0.3 then ["limited information access"] else [])
    ++ (if efficiencyRisk ≥ 0.7 then ["high efficiency risk"]
        else if efficiencyRisk ≤ 0.3 then ["lower efficiency risk"] else [])
    ++ (if timeSufficiency ≥ 0.7 then ["sufficient time"]
        else if timeSufficiency ≤ 0.3 then ["limited time"] else [])
    ++ (if randomnessRisk ≥ 0.7 then ["high randomness risk"]
        else if randomnessRisk ≤ 0.3 then ["lower randomness risk"] else [])
  "Score: " ++ formatQ2 researchScore ++ ". " ++ String.intercalate ", " reasons ++ "."

/-- `bot/filter_agent.py::evaluate_market`. -/
def evaluateMarket (now : ℚ) (m : Market) : FilterDecision :=
  let infoDependency := scoreInformationDependence now m
  let infoAccessibility := scoreInformationAccessibility m
  let efficiencyRisk := scoreMarketEfficiencyRisk m
  let timeSufficiency := scoreTimeSufficiency now m
  let randomnessRisk := scoreRandomnessRisk now m
  let researchScore :=
    infoDependency * 0.30 + infoAccessibility * 0.25 + (1 - efficiencyRisk) * 0.20 +
      timeSufficiency * 0.15 + (1 - randomnessRisk) * 0.10
  let researchWorthy := decide (researchScore ≥ 0.6)
  let priorityLevel :=
    if researchScore ≥ 0.8 then "high"
    else if researchScore ≥ 0.65 then "medium"
    else "low"
  { marketId := m.id
    researchWorthy := researchWorthy
    priorityLevel := priorityLevel
    reasoningSummary :=
      generateReasoning researchScore researchWorthy infoDependency infoAccessibility
        efficiencyRisk timeSufficiency randomnessRisk
    infoDependencyScore := infoDependency
    efficiencyRiskScore := efficiencyRisk
    randomnessRiskScore := randomnessRisk }

/-- The composite score exactly as the specification documents it:
`0.30×info_dependence + 0.25×info_accessibility + 0.20×(1−efficiency_risk)
+ 0.15×time_sufficiency + 0.10×(1−randomness_risk)`. -/
def filterComposite (now : ℚ) (m : Market) : ℚ :=
  0.30 * scoreInformationDependence now m + 0.25 * scoreInformationAccessibility m +
    0.20 * (1 - scoreMarketEfficiencyRisk m) + 0.15 * scoreTimeSufficiency now m +
    0.10 * (1 - scoreRandomnessRisk now m)

/-- C1: for every Market, `evaluate_market`'s verdicts are exactly the
documented thresholds on the documented composite: `research_worthy` iff the
composite is ≥ 0.6, priority `"high"` iff ≥ 0.8, `"medium"` iff in
[0.65, 0.8), and `"low"` otherwise. -/
theorem evaluateMarket_composite_thresholds (now : ℚ) (m : Market) :
    ((evaluateMarket now m).researchWorthy = true ↔ filterComposite now m ≥ 0.6) ∧
    ((evaluateMarket now m).priorityLevel = "high" ↔ filterComposite now m ≥ 0.8) ∧
    ((evaluateMarket now m).priorityLevel = "medium" ↔
      0.65 ≤ filterComposite now m ∧ filterComposite now m < 0.8) ∧
    ((evaluateMarket now m).priorityLevel = "low" ↔ filterComposite now m < 0.65) := by
  have hc : filterComposite now m =
      scoreInformationDependence now m * 0.30 + scoreInformationAccessibility m * 0.25 +
        (1 - scoreMarketEfficiencyRisk m) * 0.20 + scoreTimeSufficiency now m * 0.15 +
        (1 - scoreRandomnessRisk now m) * 0.10 := by
    unfold filterComposite; ring
  rw [hc]
  unfold evaluateMarket
  simp only [decide_eq_true_eq]
  refine ⟨trivial, ?_, ?_, ?_⟩
  · split_ifs with h1 h2
    · simp only [true_iff]; exact h1
    · simp only [show ("medium" = "high") = False from by simp, false_iff]
      exact not_le.mpr (not_le.mp h1)
    · simp only [show ("low" = "high") = False from by simp, false_iff]
      exact not_le.mpr (not_le.mp h1)
  · split_ifs with h1 h2
    · simp only [show ("high" = "medium") = False from by simp, false_iff]
      intro hx; linarith [hx.2]
    · simp only [true_iff]
      exact ⟨h2, not_le.mp h1⟩
    · simp only [show ("low" = "medium") = False from by simp, false_iff]
      intro hx; exact h2 hx.1
  · split_ifs with h1 h2
    · simp only [show ("high" = "low") = False from by simp, false_iff]
      intro hx; linarith
    · simp only [show ("medium" = "low") = False from by simp, false_iff]
      exact not_lt.mpr h2
    · simp only [true_iff]
      exact not_le.mp h2

/-! ### JSON parsing (model of Python `json.loads`)

The provider-response pipelines call `json.loads` on the extracted text.  A
fuel-based recursive-descent parser models it; `\uXXXX` string escapes are
not decoded (no embedded payload uses them) and the numeric grammar is
slightly more lenient than JSON's, which no claim exercises. -/

/-- Skip leading whitespace. -/
def skipWs (l : List Char) : List Char := l.dropWhile isWs

/-- Single-character string escapes recognised inside JSON strings. -/
def escChar (c : Char) : Option Char :=
  match c with
  | '"' => some '"'
  | '\\' => some '\\'
  | '/' => some '/'
  | 'n' => some '\n'
  | 't' => some '\t'
  | 'r' => some '\r'
  | _ => none

/-- Parse the body of a JSON string literal (opening quote already
consumed), returning the decoded string and the remaining input. -/
def parseJString (acc : List Char) : List Char → Option (String × List Char)
  | [] => none
  | '"' :: r => some (String.mk acc.reverse, r)
  | '\\' :: r =>
    match r with
    | [] => none
    | e :: r2 =>
      match escChar e with
      | some c => parseJString (c :: acc) r2
      | none => none
  | c :: r => parseJString (c :: acc) r

/-- Characters that may appear in a JSON number literal. -/
def isNumChar (c : Char) : Bool :=
  c.isDigit || c = '-' || c = '+' || c = '.' || c = 'e' || c = 'E'

/-- The `{` character, named to keep brace characters out of the source. -/
def braceOpen : Char := Char.ofNat 123

/-- The `}` character. -/
def braceClose : Char := Char.ofNat 125

mutual

/-- Parse one JSON value, returning it with the unconsumed input. -/
def parseJ : ℕ → List Char → Option (JValue × List Char)
  | 0, _ => none
  | fuel + 1, l =>
    match skipWs l with
    | [] => none
    | c :: r =>
      if c = 'n' then
        if ['u', 'l', 'l'].isPrefixOf r then some (.null, r.drop 3) else none
      else if c = 't' then
        if ['r', 'u', 'e'].isPrefixOf r then some (.bool true, r.drop 3) else none
      else if c = 'f' then
        if ['a', 'l', 's', 'e'].isPrefixOf r then some (.bool false, r.drop 4) else none
      else if c = '"' then
        (parseJString [] r).map (fun p => (JValue.str p.1, p.2))
      else if c = '[' then
        match skipWs r with
        | ']' :: r2 => some (.arr [], r2)
        | r2 => (parseJElems fuel r2).map (fun p => (JValue.arr p.1, p.2))
      else if c = braceOpen then
        match skipWs r with
        | [] => none
        | c2 :: r2 =>
          if c2 = braceClose then some (.obj [], r2)
          else (parseJFields fuel (c2 :: r2)).map (fun p => (JValue.obj p.1, p.2))
      else
        let numChars := (c :: r).takeWhile isNumChar
        if numChars.isEmpty then none
        else
          match parseFloat (String.mk numChars) with
          | some q => some (.num q, (c :: r).drop numChars.length)
          | none => none

/-- Parse the non-empty element list of a JSON array (after `[`). -/
def parseJElems : ℕ → List Char → Option (List JValue × List Char)
  | 0, _ => none
  | fuel + 1, l =>
    match parseJ fuel l with
    | none => none
    | some (v, rest) =>
      match skipWs rest with
      | ',' :: r2 =>
        match parseJElems fuel (skipWs r2) with
        | some (vs, rest2) => some (v :: vs, rest2)
        | none => none
      | ']' :: r2 => some ([v], r2)
      | _ => none

/-- Parse the non-empty field list of a JSON object (after `{`). -/
def parseJFields : ℕ → List Char → Option (List (String × JValue) × List Char)
  | 0, _ => none
  | fuel + 1, l =>
    match skipWs l with
    | '"' :: r =>
      match parseJString [] r with
      | none => none
      | some (k, rest) =>
        match skipWs rest with
        | ':' :: r2 =>
          match parseJ fuel r2 with
          | none => none
          | some (v, rest2) =>
            match skipWs rest2 with
            | ',' :: r3 =>
              match parseJFields fuel r3 with
              | some (fs, rest3) => some ((k, v) :: fs, rest3)
              | none => none
            | c3 :: r3 =>
              if c3 = braceClose then some ([(k, v)], r3) else none
            | [] => none
        | _ => none
    | _ => none

end

/-- Model of Python `json.loads`: parse one value and require that at most
whitespace remains. -/
def jsonLoads (s : String) : Option JValue :=
  match parseJ (2 * s.data.length + 2) s.data with
  | some (v, rest) => if (skipWs rest).isEmpty then some v else none
  | none => none

/-! ### Judge agent (`bot/judge_agent.py`) -/

/-- Index of the last occurrence of `c` (Python `str.rfind`, successful
case). -/
def rfindIdx (c : Char) (l : List Char) : Option ℕ :=
  match l.reverse.findIdx? (fun x => x = c) with
  | some k => some (l.length - 1 - k)
  | none => none

/-- Python `text.startswith(pre)` (character-level, as in CPython). -/
def strStartsWith (s pre : String) : Bool := pre.data.isPrefixOf s.data

/-- Python `text.endswith(suf)`. -/
def strEndsWith (s suf : String) : Bool := suf.data.reverse.isPrefixOf s.data.reverse

/-- Python `text[n:]` (drop the first `n` characters). -/
def strDrop (s : String) (n : ℕ) : String := ⟨s.data.drop n⟩

/-- Python `text[:-n]` for `n ≤ len` (drop the last `n` characters). -/
def strDropRight (s : String) (n : ℕ) : String := ⟨s.data.take (s.data.length - n)⟩

/-- Python `text[i:j+1]`. -/
def strSlice (s : String) (i j : ℕ) : String := ⟨(s.data.drop i).take (j + 1 - i)⟩

/-- The fence-stripping prefix of `_extract_json_from_response` (source
lines 384-395): strip whitespace, drop a leading ```` ```json ```` or
```` ``` ```` marker and a trailing ```` ``` ```` marker, strip again. -/
def stripFences (text : String) : String :=
  let t0 := pyStrip text
  let t1 :=
    if strStartsWith t0 ("```json") then strDrop t0 7
    else if strStartsWith t0 ("```") then strDrop t0 3
    else t0
  let t2 := if strEndsWith t1 ("```") then strDropRight t1 3 else t1
  pyStrip t2

/-- `bot/judge_agent.py::_extract_json_from_response`, line-identical to
`bot/research_agent.py::_extract_json_from_response`; embedded once for
both call sites.  Strips a leading/trailing fence, then slices from the
first `{` to the last `}` when that span is non-degenerate, otherwise
leaves the stripped text as is; returns `None` only for an empty result. -/
def extractJsonFromResponse (text : String) : Option String :=
  let t3 := stripFences text
  let fb := t3.data.findIdx? (fun c => c = braceOpen)
  let lb := rfindIdx braceClose t3.data
  let t4 :=
    match fb, lb with
    | some i, some j => if i < j then strSlice t3 i j else t3
    | _, _ => t3
  if t4 = "" then none else some t4

/-- The claim's side condition, as a boolean: the text contains some `{`
followed (strictly later) by some `}`.  Checking from the first `{` is
equivalent, since a `}` after any `{` is also after the first one. -/
def hasBracePair (s : String) : Bool :=
  (s.data.dropWhile (fun c => c ≠ braceOpen)).contains braceClose

/-- `bot/judge_agent.py::_validate_decision_data`: the four fields must be
present, the two probabilities must survive `float(...)` and land in
`[0, 1]`, `key_risks` must be a list and `reasoning_summary` a string. -/
def validateDecisionData (data : JValue) : Bool :=
  match jGet data ("estimated_probability"), jGet data ("confidence_level"),
      jGet data ("key_risks"), jGet data ("reasoning_summary") with
  | some ep, some cl, some kr, some rs =>
    (match pyFloat ep with
     | some p => decide (0 ≤ p ∧ p ≤ 1)
     | none => false) &&
    (match pyFloat cl with
     | some c => decide (0 ≤ c ∧ c ≤ 1)
     | none => false) &&
    (match kr with
     | .arr _ => true
     | _ => false) &&
    (match rs with
     | .str _ => true
     | _ => false)
  | _, _, _, _ => false

/-- `bot/judge_agent.py::_parse_and_validate_response`: empty/whitespace
text fails, then boundary extraction, strict JSON parsing, a dict check and
`_validate_decision_data`; any failure yields no decision data. -/
def parseAndValidateResponse (responseText : String) : Option JValue :=
  if pyStrip responseText = "" then none
  else
    match extractJsonFromResponse responseText with
    | none => none
    | some cleaned =>
      match jsonLoads cleaned with
      | none => none
      | some data =>
        match data with
        | .obj _ => if validateDecisionData data then some data else none
        | _ => none

/-- `bot/judge_agent.py::_create_decision`.  The `float(...)` conversions
are the source's lines 480-481 (they can only fail if validation was
skipped, hence the `Option`); `created_at = datetime.utcnow()` becomes the
`now` parameter. -/
def createDecision (market : Market) (data : JValue) (now : ℚ) : Option Decision :=
  match (jGet data ("estimated_probability")).bind pyFloat,
      (jGet data ("confidence_level")).bind pyFloat with
  | some estimatedProb, some confidence =>
    let edge := estimatedProb - market.probability
    let decision :=
      if edge > 0.05 ∧ confidence > 0.4 then "yes"
      else if edge < -0.05 ∧ confidence > 0.4 then "no"
      else "pass"
    let keyRisks :=
      match jGet data ("key_risks") with
      | some (.arr l) => ((l.filter pyTruthy).map (fun r => pyStrip (pyStr r))).take 10
      | _ => []
    let reasoningSummary :=
      (pyStrip (pyStr ((jGet data ("reasoning_summary")).getD (.str "")))).take 500
    some
      { marketId := market.id
        estimatedProbability := estimatedProb
        confidenceLevel := confidence
        edge := edge
        decision := decision
        keyRisks := keyRisks
        reasoningSummary := reasoningSummary
        createdAt := now }
  | _, _ => none

/-- C2: for every Market and every judgment payload that passed
`_validate_decision_data`, the Decision built by `_create_decision` has
`edge = estimated_probability - market.probability`, and its decision field
is `"yes"` exactly when `edge > 0.05` and `confidence_level > 0.4`, `"no"`
exactly when `edge < -0.05` and `confidence_level > 0.4`, and `"pass"` in
every other case. -/
theorem createDecision_edge_rule (m : Market) (data : JValue) (now : ℚ)
    (h : validateDecisionData data = true) :
    (∃ d : Decision, createDecision m data now = some d) ∧
    ∀ d : Decision, createDecision m data now = some d →
      d.edge = d.estimatedProbability - m.probability ∧
      ((d.decision = "yes") ↔ (d.edge > 0.05 ∧ d.confidenceLevel > 0.4)) ∧
      ((d.decision = "no") ↔ (d.edge < -0.05 ∧ d.confidenceLevel > 0.4)) ∧
      ((d.decision = "pass") ↔
        (¬(d.edge > 0.05 ∧ d.confidenceLevel > 0.4) ∧
          ¬(d.edge < -0.05 ∧ d.confidenceLevel > 0.4))) := by
  cases hep : jGet data ("estimated_probability") with
  | none => rw [validateDecisionData, hep] at h; simp at h
  | some ep =>
  cases hcl : jGet data ("confidence_level") with
  | none => rw [validateDecisionData, hep, hcl] at h; simp at h
  | some cl =>
  cases hkr : jGet data ("key_risks") with
  | none => rw [validateDecisionData, hep, hcl, hkr] at h; simp at h
  | some kr =>
  cases hrs : jGet data ("reasoning_summary") with
  | none => rw [validateDecisionData, hep, hcl, hkr, hrs] at h; simp at h
  | some rs =>
  rw [validateDecisionData, hep, hcl, hkr, hrs] at h
  simp only [Bool.and_eq_true] at h
  obtain ⟨⟨⟨h1, h2⟩, h3⟩, h4⟩ := h
  cases hp : pyFloat ep with
  | none => rw [hp] at h1; simp at h1
  | some p =>
  cases hc : pyFloat cl with
  | none => rw [hc] at h2; simp at h2
  | some c =>
  constructor
  · rw [createDecision, hep, hcl]
    simp only [Option.some_bind, hp, hc]
    exact ⟨_, rfl⟩
  · intro d hd
    rw [createDecision, hep, hcl] at hd
    simp only [Option.some_bind, hp, hc] at hd
    obtain rfl : _ = d := Option.some.inj hd
    refine ⟨rfl, ?_, ?_, ?_⟩
    · show (if p - m.probability > 0.05 ∧ c > 0.4 then "yes"
          else if p - m.probability < -0.05 ∧ c > 0.4 then "no" else "pass") = "yes" ↔ _
      split_ifs with hA hB
      · simpa using hA
      · simp only [show ("no" = "yes") = False from by simp, false_iff]
        simpa using hA
      · simp only [show ("pass" = "yes") = False from by simp, false_iff]
        simpa using hA
    · show (if p - m.probability > 0.05 ∧ c > 0.4 then "yes"
          else if p - m.probability < -0.05 ∧ c > 0.4 then "no" else "pass") = "no" ↔ _
      split_ifs with hA hB
      · simp only [show ("yes" = "no") = False from by simp, false_iff]
        intro hx
        exact absurd hA.1 (not_lt.mpr (by linarith [hx.1]))
      · simpa using hB
      · simp only [show ("pass" = "no") = False from by simp, false_iff]
        simpa using hB
    · show (if p - m.probability > 0.05 ∧ c > 0.4 then "yes"
          else if p - m.probability < -0.05 ∧ c > 0.4 then "no" else "pass") = "pass" ↔ _
      split_ifs with hA hB
      · simp only [show ("yes" = "pass") = False from by simp, false_iff]
        intro hx
        exact hx.1 hA
      · simp only [show ("no" = "pass") = False from by simp, false_iff]
        intro hx
        exact hx.2 hB
      · simp only [show ("pass" = "pass") = True from by simp, true_iff]
        exact ⟨hA, hB⟩

/-- Witness for C2 at a concrete market and validated payload. -/
theorem createDecision_edge_rule_witness :
    validateDecisionData
        (JValue.obj
          [("estimated_probability", JValue.num 0.7), ("confidence_level", JValue.num 0.5),
           ("key_risks", JValue.arr [JValue.str "r1"]), ("reasoning_summary", JValue.str "ok")]) =
        true ∧
    ((∃ d : Decision,
        createDecision
            { id := "m1", title := "t", description := "d", probability := 0.5,
              liquidity := 1000, endDate := none }
            (JValue.obj
              [("estimated_probability", JValue.num 0.7), ("confidence_level", JValue.num 0.5),
               ("key_risks", JValue.arr [JValue.str "r1"]), ("reasoning_summary", JValue.str "ok")])
            0 =
          some d) ∧
      ∀ d : Decision,
        createDecision
            { id := "m1", title := "t", description := "d", probability := 0.5,
              liquidity := 1000, endDate := none }
            (JValue.obj
              [("estimated_probability", JValue.num 0.7), ("confidence_level", JValue.num 0.5),
               ("key_risks", JValue.arr [JValue.str "r1"]), ("reasoning_summary", JValue.str "ok")])
            0 =
          some d →
          d.edge = d.estimatedProbability -
            (Market.probability
              { id := "m1", title := "t", description := "d", probability := 0.5,
                liquidity := 1000, endDate := none }) ∧
          ((d.decision = "yes") ↔ (d.edge > 0.05 ∧ d.confidenceLevel > 0.4)) ∧
          ((d.decision = "no") ↔ (d.edge < -0.05 ∧ d.confidenceLevel > 0.4)) ∧
          ((d.decision = "pass") ↔
            (¬(d.edge > 0.05 ∧ d.confidenceLevel > 0.4) ∧
              ¬(d.edge < -0.05 ∧ d.confidenceLevel > 0.4)))) := by
  have hval :
      validateDecisionData
        (JValue.obj
          [("estimated_probability", JValue.num 0.7), ("confidence_level", JValue.num 0.5),
           ("key_risks", JValue.arr [JValue.str "r1"]), ("reasoning_summary", JValue.str "ok")]) =
      true := by
    simp +decide [validateDecisionData, jGet, assocFind, pyFloat, pyFloatE, Except.toOption]
    norm_num
  exact ⟨hval, createDecision_edge_rule _ _ 0 hval⟩

/-- C5 counterexample: a judgment payload whose `estimated_probability` is
the *string* `"0.5"` — a wrong type, which the claim says must fail —
nevertheless passes `_validate_decision_data`, because Python
`float("0.5")` coerces the numeric string. -/
theorem validateDecisionData_numeric_string_cex :
    jGet
        (JValue.obj
          [("estimated_probability", JValue.str "0.5"), ("confidence_level", JValue.bool true),
           ("key_risks", JValue.arr []), ("reasoning_summary", JValue.str "")])
        ("estimated_probability") =
      some (JValue.str "0.5") ∧
    validateDecisionData
        (JValue.obj
          [("estimated_probability", JValue.str "0.5"), ("confidence_level", JValue.bool true),
           ("key_risks", JValue.arr []), ("reasoning_summary", JValue.str "")]) =
      true := by
  refine ⟨rfl, ?_⟩
  simp +decide [validateDecisionData, jGet, assocFind, pyFloat, pyFloatE, Except.toOption,
    parseFloat, stripChars, splitSign, splitFirst, parseMantissa, parseDigits, fracVal,
    digitVal, isWs, List.rdropWhile]
  norm_num

/-- C5 (amended): validation succeeds exactly when all four fields are
present, `estimated_probability` and `confidence_level` are
`float()`-coercible values (numbers, booleans, or numeric strings) whose
value lies in `[0, 1]`, `key_risks` is a list and `reasoning_summary` is a
string; non-coercible values or out-of-range numbers fail; and any decision
data the per-attempt parse pipeline produces passed this validation, so a
failed validation produces no decision data for that attempt. -/
theorem validateDecisionData_spec :
    (∀ data : JValue,
      validateDecisionData data = true ↔
        (∃ p, (jGet data ("estimated_probability")).bind pyFloat = some p ∧ 0 ≤ p ∧ p ≤ 1) ∧
        (∃ c, (jGet data ("confidence_level")).bind pyFloat = some c ∧ 0 ≤ c ∧ c ≤ 1) ∧
        (∃ l, jGet data ("key_risks") = some (JValue.arr l)) ∧
        (∃ s, jGet data ("reasoning_summary") = some (JValue.str s))) ∧
    (∀ (text : String) (data : JValue),
      parseAndValidateResponse text = some data → validateDecisionData data = true) := by
  constructor
  · intro data
    cases hep : jGet data ("estimated_probability") with
    | none => simp [validateDecisionData, hep]
    | some ep =>
    cases hcl : jGet data ("confidence_level") with
    | none => simp [validateDecisionData, hep, hcl]
    | some cl =>
    cases hkr : jGet data ("key_risks") with
    | none => simp [validateDecisionData, hep, hcl, hkr]
    | some kr =>
    cases hrs : jGet data ("reasoning_summary") with
    | none => simp [validateDecisionData, hep, hcl, hkr, hrs]
    | some rs =>
    rw [validateDecisionData, hep, hcl, hkr, hrs]
    cases hp : pyFloat ep <;> cases hc : pyFloat cl <;> cases kr <;> cases rs <;>
      simp [hp, hc, and_assoc]
  · intro text data h
    unfold parseAndValidateResponse at h
    split at h
    · exact absurd h (by simp)
    · split at h
      · exact absurd h (by simp)
      · split at h
        · exact absurd h (by simp)
        · split at h
          · split at h
            · rename_i hv
              obtain rfl := Option.some.inj h
              exact hv
            · exact absurd h (by simp)
          · exact absurd h (by simp)

set_option maxRecDepth 10000 in
/-- Witness for C5's amended theorem: a concrete provider text that parses
and validates, on which the validation-gate implication is applied. -/
theorem validateDecisionData_spec_witness :
    parseAndValidateResponse
        ("\x7b\"estimated_probability\": true, \"confidence_level\": false, \"key_risks\": [], \"reasoning_summary\": \"ok\"\x7d") =
      some
        (JValue.obj
          [("estimated_probability", JValue.bool true), ("confidence_level", JValue.bool false),
           ("key_risks", JValue.arr []), ("reasoning_summary", JValue.str "ok")]) ∧
    validateDecisionData
        (JValue.obj
          [("estimated_probability", JValue.bool true), ("confidence_level", JValue.bool false),
           ("key_risks", JValue.arr []), ("reasoning_summary", JValue.str "ok")]) =
      true := by
  have hp :
      parseAndValidateResponse
          ("\x7b\"estimated_probability\": true, \"confidence_level\": false, \"key_risks\": [], \"reasoning_summary\": \"ok\"\x7d") =
        some
          (JValue.obj
            [("estimated_probability", JValue.bool true), ("confidence_level", JValue.bool false),
             ("key_risks", JValue.arr []), ("reasoning_summary", JValue.str "ok")]) := rfl
  exact ⟨hp, validateDecisionData_spec.2 _ _ hp⟩

/-- A `}` strictly after a `{` survives dropping up to the first `{`. -/
theorem contains_braceClose_of_pair :
    ∀ (l : List Char) (i j : ℕ) (hij : i < j) (hj : j < l.length),
      l.get ⟨i, Nat.lt_trans hij hj⟩ = braceOpen → l.get ⟨j, hj⟩ = braceClose →
      (l.dropWhile (fun c => c ≠ braceOpen)).contains braceClose = true := by
  intro l
  induction l with
  | nil => intro i j hij hj; exact absurd hj (by simp)
  | cons c r ih =>
    intro i j hij hj hi hjc
    by_cases hc : c = braceOpen
    · rw [List.dropWhile_cons_of_neg (by simp [hc])]
      have hjmem : braceClose ∈ c :: r := by
        rw [← hjc]
        exact List.get_mem _ _ _
      simpa using hjmem
    · cases i with
      | zero => exact absurd hi hc
      | succ i' =>
        cases j with
        | zero => exact absurd hij (by omega)
        | succ j' =>
          rw [List.dropWhile_cons_of_pos (by simp [hc])]
          exact ih i' j' (by omega) (by simpa using hj) hi hjc

/-- C8 counterexample: the raw text `"hello"` has no brace pair, yet
extraction returns `some "hello"` (the claim says it must fail). -/
theorem extractJson_no_brace_cex :
    hasBracePair ("hello") = false ∧
    extractJsonFromResponse ("hello") = some ("hello") := ⟨rfl, rfl⟩

/-- C8 (amended): when the fence-stripped text contains no `\x7b` followed
later by a `\x7d`, the extraction does not slice: it returns the
fence-stripped text itself (a substring of the input), or `none` only when
that text is empty. -/
theorem extractJson_no_brace_spec (s : String)
    (h : hasBracePair (stripFences s) = false) :
    extractJsonFromResponse s =
      if stripFences s = "" then none else some (stripFences s) := by
  unfold extractJsonFromResponse
  cases hfb : (stripFences s).data.findIdx? (fun c => c = braceOpen) with
  | none => simp only [hfb]
  | some i =>
    cases hlb : rfindIdx braceClose (stripFences s).data with
    | none => simp only [hfb, hlb]
    | some j =>
      have hnij : ¬ i < j := by
        intro hij
        obtain ⟨hi, hpi, -⟩ := List.findIdx?_eq_some_iff_getElem.mp hfb
        have hiv : (stripFences s).data.get ⟨i, hi⟩ = braceOpen := by
          simpa using hpi
        unfold rfindIdx at hlb
        cases hk : (stripFences s).data.reverse.findIdx? (fun x => x = braceClose) with
        | none => rw [hk] at hlb; exact absurd hlb (by simp)
        | some k =>
          rw [hk] at hlb
          obtain ⟨hk1, hpk, -⟩ := List.findIdx?_eq_some_iff_getElem.mp hk
          have hkv : (stripFences s).data.reverse[k] = braceClose := by
            simpa using hpk
          rw [List.getElem_reverse] at hkv
          have hj' : j = (stripFences s).data.length - 1 - k := by
            simpa using hlb.symm
          have hjlen : j < (stripFences s).data.length := by
            have : k < (stripFences s).data.length := by simpa using hk1
            omega
          have hjv : (stripFences s).data.get ⟨j, hjlen⟩ = braceClose := by
            simp only [List.get_eq_getElem]
            subst hj'
            exact hkv
          have := contains_braceClose_of_pair (stripFences s).data i j hij hjlen hiv hjv
          rw [hasBracePair] at h
          rw [this] at h
          exact absurd h (by simp)
      simp only [hfb, hlb, if_neg hnij]

/-- Witness for C8's amended theorem at the text `"hello"`. -/
theorem extractJson_no_brace_spec_witness :
    hasBracePair (stripFences ("hello")) = false ∧
    extractJsonFromResponse ("hello") =
      (if stripFences ("hello") = "" then none else some (stripFences ("hello"))) :=
  ⟨rfl, extractJson_no_brace_spec ("hello") rfl⟩

/-! ### Research agent (`bot/research_agent.py`) -/

/-- `bot/research_agent.py::EvidenceDict` after validation: all six fields
always present. -/
structure EvidenceRecord where
  recentDevelopments : List String
  evidenceYes : List String
  evidenceNo : List String
  officialSignals : List String
  timelineConstraints : List String
  sourceQuality : String
deriving DecidableEq

/-- The per-field list normalisation of `_validate_evidence_schema`:
`[str(item).strip() for item in items if item][:20]` — drop falsy raw
items, coerce the rest to stripped text, cap at 20. -/
def cleanEvidenceList (items : List JValue) : List String :=
  ((items.filter pyTruthy).map (fun it => pyStrip (pyStr it))).take 20

/-- One field block of `_validate_evidence_schema`: a present list value is
normalised, a missing or non-list value leaves the empty default. -/
def evidenceListField (data : JValue) (key : String) : List String :=
  match jGet data key with
  | some (.arr items) => cleanEvidenceList items
  | _ => []

/-- The four canonical `source_quality` values. -/
def sourceQualityValues : List String := ["high", "medium", "low", "unknown"]

/-- `bot/research_agent.py::_validate_evidence_schema`. -/
def validateEvidenceSchema (data : JValue) : EvidenceRecord :=
  { recentDevelopments := evidenceListField data ("recent_developments")
    evidenceYes := evidenceListField data ("evidence_yes")
    evidenceNo := evidenceListField data ("evidence_no")
    officialSignals := evidenceListField data ("official_signals")
    timelineConstraints := evidenceListField data ("timeline_constraints")
    sourceQuality :=
      match jGet data ("source_quality") with
      | some v =>
        let q := pyLower (pyStrip (pyStr v))
        if sourceQualityValues.contains q then q else "unknown"
      | none => "unknown" }

/-- A list that `dropWhile p` leaves unchanged also leaves each of its
prefixes unchanged. -/
theorem dropWhile_eq_self_of_prefix {α : Type} (p : α → Bool) (m x : List α)
    (hm : m.dropWhile p = m) (hx : x <+: m) : x.dropWhile p = x := by
  rw [List.dropWhile_eq_self_iff] at hm ⊢
  intro hl
  obtain ⟨t, rfl⟩ := hx
  have h0 : 0 < (x ++ t).length := by
    simp only [List.length_append]
    omega
  have hhead := hm h0
  have hget : (x ++ t).get ⟨0, h0⟩ = x.get ⟨0, hl⟩ := by
    simp only [List.get_eq_getElem]
    exact List.getElem_append_left hl
  rwa [hget] at hhead

/-- Python `strip()` is idempotent. -/
theorem stripChars_idem (l : List Char) : stripChars (stripChars l) = stripChars l := by
  unfold stripChars
  have h1 : ((l.dropWhile isWs).rdropWhile isWs).dropWhile isWs =
      (l.dropWhile isWs).rdropWhile isWs :=
    dropWhile_eq_self_of_prefix isWs (l.dropWhile isWs) _
      (List.dropWhile_idempotent _ _) (List.rdropWhile_prefix _ _)
  rw [h1, List.rdropWhile_idempotent]

/-- `pyStrip` is idempotent. -/
theorem pyStrip_idem (s : String) : pyStrip (pyStrip s) = pyStrip s := by
  unfold pyStrip
  exact congrArg String.mk (stripChars_idem s.data)

/-- Every item produced by `cleanEvidenceList` is its own `strip()`. -/
theorem cleanEvidenceList_stripped (items : List JValue) :
    ∀ x ∈ cleanEvidenceList items, pyStrip x = x := by
  intro x hx
  unfold cleanEvidenceList at hx
  have hx' := List.mem_of_mem_take hx
  obtain ⟨raw, -, rfl⟩ := List.mem_map.mp hx'
  exact pyStrip_idem (pyStr raw)

/-- `cleanEvidenceList` caps at 20 items. -/
theorem cleanEvidenceList_length_le (items : List JValue) :
    (cleanEvidenceList items).length ≤ 20 := by
  unfold cleanEvidenceList
  exact List.length_take_le _ _

/-- C6 counterexample: a payload whose `evidence_yes` contains the
whitespace-only string `" "` validates to a record containing the *empty*
string — not a non-empty item as the claim requires — because the code
filters falsy items before stripping, and `" "` is truthy. -/
theorem validateEvidenceSchema_whitespace_cex :
    (validateEvidenceSchema
        (JValue.obj [("evidence_yes", JValue.arr [JValue.str " "])])).evidenceYes =
      [""] := rfl

/-- C6 (amended): for every raw evidence payload the validated record has
all six fields (by construction of `EvidenceRecord`), every item of every
list field is a *stripped* string (possibly empty, when the raw item was a
truthy whitespace-only string; falsy raw items are dropped), every list has
length at most 20, and `source_quality` is one of the four canonical
values. -/
theorem validateEvidenceSchema_shape (data : JValue) :
    ((validateEvidenceSchema data).recentDevelopments.length ≤ 20 ∧
      (validateEvidenceSchema data).evidenceYes.length ≤ 20 ∧
      (validateEvidenceSchema data).evidenceNo.length ≤ 20 ∧
      (validateEvidenceSchema data).officialSignals.length ≤ 20 ∧
      (validateEvidenceSchema data).timelineConstraints.length ≤ 20) ∧
    (∀ x ∈ (validateEvidenceSchema data).recentDevelopments ++
        (validateEvidenceSchema data).evidenceYes ++
        (validateEvidenceSchema data).evidenceNo ++
        (validateEvidenceSchema data).officialSignals ++
        (validateEvidenceSchema data).timelineConstraints,
      pyStrip x = x) ∧
    (validateEvidenceSchema data).sourceQuality ∈ sourceQualityValues := by
  have hfield : ∀ key : String,
      (evidenceListField data key).length ≤ 20 := by
    intro key
    unfold evidenceListField
    cases jGet data key with
    | none => simp
    | some v =>
      cases v <;> first
        | exact cleanEvidenceList_length_le _
        | simp
  have hstrip : ∀ (key : String) (x : String),
      x ∈ evidenceListField data key → pyStrip x = x := by
    intro key x hx
    unfold evidenceListField at hx
    revert hx
    cases jGet data key with
    | none => intro hx; exact absurd hx (by simp)
    | some v =>
      cases v <;> intro hx <;> first
        | exact cleanEvidenceList_stripped _ x hx
        | exact absurd hx (by simp)
  refine ⟨⟨hfield _, hfield _, hfield _, hfield _, hfield _⟩, ?_, ?_⟩
  · intro x hx
    simp only [validateEvidenceSchema, List.mem_append] at hx
    rcases hx with (((hx | hx) | hx) | hx) | hx <;> exact hstrip _ x hx
  · show (match jGet data ("source_quality") with
      | some v =>
        let q := pyLower (pyStrip (pyStr v))
        if sourceQualityValues.contains q then q else "unknown"
      | none => "unknown") ∈ sourceQualityValues
    cases jGet data ("source_quality") with
    | none => simp [sourceQualityValues]
    | some v =>
      show (if sourceQualityValues.contains (pyLower (pyStrip (pyStr v)))
          then pyLower (pyStrip (pyStr v)) else "unknown") ∈ sourceQualityValues
      cases hq : sourceQualityValues.contains (pyLower (pyStrip (pyStr v))) with
      | true =>
        simp only [hq, if_true]
        exact List.mem_of_elem_eq_true hq
      | false =>
        simp only [hq, Bool.false_eq_true, if_false]
        simp [sourceQualityValues]

/-- Re-encode a validated EvidenceRecord as the JSON payload an exactly
canonical provider response would parse to. -/
def evidenceToJson (r : EvidenceRecord) : JValue :=
  JValue.obj
    [("recent_developments", JValue.arr (r.recentDevelopments.map JValue.str)),
     ("evidence_yes", JValue.arr (r.evidenceYes.map JValue.str)),
     ("evidence_no", JValue.arr (r.evidenceNo.map JValue.str)),
     ("official_signals", JValue.arr (r.officialSignals.map JValue.str)),
     ("timeline_constraints", JValue.arr (r.timelineConstraints.map JValue.str)),
     ("source_quality", JValue.str r.sourceQuality)]

/-- `cleanEvidenceList` is the identity on a list of already-canonical
items (stripped, non-empty, at most 20). -/
theorem cleanEvidenceList_canonical (l : List String)
    (h : ∀ x ∈ l, pyStrip x = x ∧ x ≠ "") (hlen : l.length ≤ 20) :
    cleanEvidenceList (l.map JValue.str) = l := by
  unfold cleanEvidenceList
  have hfilter : (l.map JValue.str).filter pyTruthy = l.map JValue.str := by
    rw [List.filter_eq_self]
    intro v hv
    obtain ⟨x, hx, rfl⟩ := List.mem_map.mp hv
    simp [pyTruthy, (h x hx).2]
  rw [hfilter, List.map_map]
  have hmap : l.map ((fun it => pyStrip (pyStr it)) ∘ JValue.str) = l := by
    have : ∀ x ∈ l, ((fun it => pyStrip (pyStr it)) ∘ JValue.str) x = id x := by
      intro x hx
      exact (h x hx).1
    rw [List.map_congr_left this, List.map_id]
  rw [hmap]
  exact List.take_of_length_le hlen

/-- Unfolding helper: a present list-valued field is normalised. -/
theorem evidenceListField_arr (data : JValue) (key : String) (items : List JValue)
    (h : jGet data key = some (JValue.arr items)) :
    evidenceListField data key = cleanEvidenceList items := by
  unfold evidenceListField
  rw [h]

/-- C10: evidence validation is idempotent — validating the payload of an
already-canonical EvidenceRecord (stripped non-empty items, lists of at
most 20, canonical source_quality) returns the identical record — and a
payload missing a field always yields the empty list (resp. `"unknown"`)
for it, never an absent value. -/
theorem validateEvidenceSchema_idem :
    (∀ r : EvidenceRecord,
      (∀ x ∈ r.recentDevelopments ++ r.evidenceYes ++ r.evidenceNo ++
          r.officialSignals ++ r.timelineConstraints, pyStrip x = x ∧ x ≠ "") →
      r.recentDevelopments.length ≤ 20 → r.evidenceYes.length ≤ 20 →
      r.evidenceNo.length ≤ 20 → r.officialSignals.length ≤ 20 →
      r.timelineConstraints.length ≤ 20 →
      r.sourceQuality ∈ sourceQualityValues →
      validateEvidenceSchema (evidenceToJson r) = r) ∧
    (∀ data : JValue,
      (jGet data ("recent_developments") = none →
        (validateEvidenceSchema data).recentDevelopments = []) ∧
      (jGet data ("evidence_yes") = none → (validateEvidenceSchema data).evidenceYes = []) ∧
      (jGet data ("evidence_no") = none → (validateEvidenceSchema data).evidenceNo = []) ∧
      (jGet data ("official_signals") = none →
        (validateEvidenceSchema data).officialSignals = []) ∧
      (jGet data ("timeline_constraints") = none →
        (validateEvidenceSchema data).timelineConstraints = []) ∧
      (jGet data ("source_quality") = none →
        (validateEvidenceSchema data).sourceQuality = "unknown")) := by
  constructor
  · rintro ⟨rd, ey, en, os, tc, sq⟩ hmem h1 h2 h3 h4 h5 hsq
    have hrd : ∀ x ∈ rd, pyStrip x = x ∧ x ≠ "" := fun x hx =>
      hmem x (by simp [List.mem_append, hx])
    have hey : ∀ x ∈ ey, pyStrip x = x ∧ x ≠ "" := fun x hx =>
      hmem x (by simp [List.mem_append, hx])
    have hen : ∀ x ∈ en, pyStrip x = x ∧ x ≠ "" := fun x hx =>
      hmem x (by simp [List.mem_append, hx])
    have hos : ∀ x ∈ os, pyStrip x = x ∧ x ≠ "" := fun x hx =>
      hmem x (by simp [List.mem_append, hx])
    have htc : ∀ x ∈ tc, pyStrip x = x ∧ x ≠ "" := fun x hx =>
      hmem x (by simp [List.mem_append, hx])
    unfold validateEvidenceSchema
    simp only [EvidenceRecord.mk.injEq]
    refine ⟨?_, ?_, ?_, ?_, ?_, ?_⟩
    · rw [evidenceListField_arr
          (evidenceToJson ⟨rd, ey, en, os, tc, sq⟩) ("recent_developments") (rd.map JValue.str) rfl]
      exact cleanEvidenceList_canonical rd hrd h1
    · rw [evidenceListField_arr
          (evidenceToJson ⟨rd, ey, en, os, tc, sq⟩) ("evidence_yes") (ey.map JValue.str) rfl]
      exact cleanEvidenceList_canonical ey hey h2
    · rw [evidenceListField_arr
          (evidenceToJson ⟨rd, ey, en, os, tc, sq⟩) ("evidence_no") (en.map JValue.str) rfl]
      exact cleanEvidenceList_canonical en hen h3
    · rw [evidenceListField_arr
          (evidenceToJson ⟨rd, ey, en, os, tc, sq⟩) ("official_signals") (os.map JValue.str) rfl]
      exact cleanEvidenceList_canonical os hos h4
    · rw [evidenceListField_arr
          (evidenceToJson ⟨rd, ey, en, os, tc, sq⟩) ("timeline_constraints") (tc.map JValue.str) rfl]
      exact cleanEvidenceList_canonical tc htc h5
    · show (if sourceQualityValues.contains (pyLower (pyStrip sq))
          then pyLower (pyStrip sq) else "unknown") = sq
      simp only [sourceQualityValues, List.mem_cons, List.not_mem_nil, or_false] at hsq
      rcases hsq with rfl | rfl | rfl | rfl <;> decide
  · intro data
    refine ⟨?_, ?_, ?_, ?_, ?_, ?_⟩ <;> intro h
    · show evidenceListField data ("recent_developments") = []
      unfold evidenceListField
      rw [h]
    · show evidenceListField data ("evidence_yes") = []
      unfold evidenceListField
      rw [h]
    · show evidenceListField data ("evidence_no") = []
      unfold evidenceListField
      rw [h]
    · show evidenceListField data ("official_signals") = []
      unfold evidenceListField
      rw [h]
    · show evidenceListField data ("timeline_constraints") = []
      unfold evidenceListField
      rw [h]
    · show (match jGet data ("source_quality") with
        | some v =>
          let q := pyLower (pyStrip (pyStr v))
          if sourceQualityValues.contains q then q else "unknown"
        | none => "unknown") = "unknown"
      rw [h]

/-- Witness for C10: a concrete canonical record round-trips unchanged, and
the empty payload yields all defaults. -/
theorem validateEvidenceSchema_idem_witness :
    validateEvidenceSchema
        (evidenceToJson
          { recentDevelopments := ["a"], evidenceYes := [], evidenceNo := [],
            officialSignals := [], timelineConstraints := [], sourceQuality := "high" }) =
      { recentDevelopments := ["a"], evidenceYes := [], evidenceNo := [],
        officialSignals := [], timelineConstraints := [], sourceQuality := "high" } ∧
    (validateEvidenceSchema (JValue.obj [])).recentDevelopments = [] ∧
    (validateEvidenceSchema (JValue.obj [])).sourceQuality = "unknown" := by
  refine ⟨?_, ?_, ?_⟩
  · exact validateEvidenceSchema_idem.1 _ (by decide) (by decide) (by decide) (by decide)
      (by decide) (by decide) (by decide)
  · exact (validateEvidenceSchema_idem.2 (JValue.obj [])).1 rfl
  · exact ((((((validateEvidenceSchema_idem.2 (JValue.obj [])).2).2).2).2).2) rfl

/-! ### Scanner (`bot/scanner.py`) -/

/-- `bot/scanner.py::_safe_float`: `None` gives the default, numbers (and
booleans, an `int` subclass) convert, strings are tried with `float(...)`
falling back to the default, anything else gives the default. -/
def safeFloat (v : JValue) (dflt : ℚ) : ℚ :=
  match v with
  | .null => dflt
  | .num q => q
  | .bool b => if b then 1 else 0
  | .str s => (parseFloat s).getD dflt
  | _ => dflt

/-- Python `a or b` on values (first truthy operand, else the last). -/
def pyOr (a b : JValue) : JValue := if pyTruthy a then a else b

/-- `data.get(key)`, with Python's `None` for a missing key. -/
def jGetD (data : JValue) (key : String) : JValue := (jGet data key).getD .null

/-- Python `str.replace` (all occurrences). -/
def replaceChars (pat rep : List Char) : List Char → List Char
  | [] => []
  | c :: r =>
    if h : pat ≠ [] ∧ pat.isPrefixOf (c :: r) then
      rep ++ replaceChars pat rep ((c :: r).drop pat.length)
    else c :: replaceChars pat rep r
termination_by l => l.length
decreasing_by
  · simp only [List.length_drop, List.length_cons]
    have : 1 ≤ pat.length := by
      cases pat with
      | nil => exact absurd rfl h.1
      | cons x xs => simp
    omega
  · simp

/-- Days from the civil epoch 1970-01-01 (standard civil-calendar
computation; the bot only handles dates after 1970, where all intermediate
quotients are non-negative). -/
def daysFromCivil (y mo dy : ℤ) : ℤ :=
  let y' := if mo ≤ 2 then y - 1 else y
  let era := (if 0 ≤ y' then y' else y' - 399) / 400
  let yoe := y' - era * 400
  let mp := (mo + 9) % 12
  let doy := (153 * mp + 2) / 5 + dy - 1
  let doe := yoe * 365 + yoe / 4 - yoe / 100 + doy
  era * 146097 + doe - 719468

/-- Parse `"HH:MM"` as an offset in seconds. -/
def parseOffset (l : List Char) : Option ℚ :=
  let (hh, r) := splitFirst (fun c => c = ':') l
  match r with
  | none => none
  | some mm =>
    match parseDigits hh, parseDigits mm with
    | some h, some m => some ((h : ℚ) * 3600 + (m : ℚ) * 60)
    | _, _ => none

/-- Parse `"HH:MM[:SS[.ffffff]]"` as seconds since midnight. -/
def parseTimeOfDay (l : List Char) : Option ℚ :=
  let (hh, r1) := splitFirst (fun c => c = ':') l
  match r1 with
  | none => none
  | some r1 =>
    let (mm, r2) := splitFirst (fun c => c = ':') r1
    match parseDigits hh, parseDigits mm with
    | some h, some m =>
      match r2 with
      | none => some ((h : ℚ) * 3600 + (m : ℚ) * 60)
      | some r2 =>
        let (ss, fr) := splitFirst (fun c => c = '.') r2
        match parseDigits ss with
        | none => none
        | some sec =>
          match fr with
          | none => some ((h : ℚ) * 3600 + (m : ℚ) * 60 + sec)
          | some f =>
            if f ≠ [] ∧ f.all Char.isDigit then
              some ((h : ℚ) * 3600 + (m : ℚ) * 60 + sec + fracVal f)
            else none
    | _, _ => none

/-- Simplified model of the ISO-8601 parsing done by
`datetime.fromisoformat` and the `strptime` fallbacks of
`bot/scanner.py::_parse_end_date`: `YYYY-MM-DD`, an optional `T`/space time
part, optional fractional seconds, optional `±HH:MM` offset.  Calendar
range validation is elided; no claim depends on date parsing. -/
def parseIsoDate (s : String) : Option ℚ :=
  let (datePart, timeRest) := splitFirst (fun c => c = 'T' ∨ c = ' ') s.data
  let (ys, r1) := splitFirst (fun c => c = '-') datePart
  match r1 with
  | none => none
  | some r1 =>
    let (ms, ds) := splitFirst (fun c => c = '-') r1
    match parseDigits ys, parseDigits ms, ds with
    | some y, some mo, some dsl =>
      match parseDigits dsl with
      | none => none
      | some dy =>
        let base : ℚ := (daysFromCivil (y : ℤ) (mo : ℤ) (dy : ℤ) : ℚ) * 86400
        match timeRest with
        | none => some base
        | some tr =>
          let (tpart, plus) := splitFirst (fun c => c = '+') tr
          match plus with
          | some off =>
            match parseTimeOfDay tpart, parseOffset off with
            | some t, some o => some (base + t - o)
            | _, _ => none
          | none =>
            let (tpart2, minus) := splitFirst (fun c => c = '-') tr
            match minus with
            | some off =>
              match parseTimeOfDay tpart2, parseOffset off with
              | some t, some o => some (base + t + o)
              | _, _ => none
            | none => (parseTimeOfDay tr).map (fun t => base + t)
    | _, _, _ => none

/-- `bot/scanner.py::_parse_end_date`.  A falsy value gives `None`; a
string is parsed (all format failures give `None`); a truthy non-string
raises `AttributeError` in `fromisoformat` (caught) and then `TypeError`
in `strptime`, which escapes to `_parse_market`'s handler — modelled as
`.error`. -/
def parseEndDate (v : JValue) : Except Unit (Option ℚ) :=
  if ¬ pyTruthy v then .ok none
  else
    match v with
    | .str s => .ok (parseIsoDate ⟨replaceChars ("Z").data ("+00:00").data s.data⟩)
    | _ => .error ()

/-- The `json.loads` normalisation applied to `outcomePrices`/`outcomes`
when the API returned them as JSON strings (`_extract_probability` lines
208-218); a failed parse keeps the string. -/
def jsonNormalize (v : Option JValue) : Option JValue :=
  match v with
  | some (.str s) => some ((jsonLoads s).getD (.str s))
  | x => x

/-- `return float(outcome_prices[0]) if outcome_prices else 0.5`, with any
conversion error reaching the outer handler (= 0.5). -/
def defaultFirstPrice (l : List JValue) : ℚ :=
  match l.head? with
  | some v =>
    match pyFloatE v with
    | .ok p => p
    | .error _ => 0.5
  | none => 0.5

/-- The bestBid/bestAsk fallback of `_extract_probability` (lines 221-227). -/
def fallbackBidAsk (data : JValue) : ℚ :=
  match jGet data ("bestBid"), jGet data ("bestAsk") with
  | some bb, some ba =>
    if pyTruthy bb && pyTruthy ba then
      match pyFloatE bb, pyFloatE ba with
      | .ok x, .ok y => (x + y) / 2
      | _, _ => 0.5
    else 0.5
  | _, _ => 0.5

/-- `bot/scanner.py::_extract_probability`.  The inner `try` around the
"Yes" lookup catches only `ValueError`/`IndexError` (falling through to the
first-outcome default); a `TypeError` from `float` reaches the outer
handler and yields 0.5 directly. -/
def extractProbability (data : JValue) : ℚ :=
  let op := jsonNormalize (jGet data ("outcomePrices"))
  let oc := jsonNormalize (jGet data ("outcomes"))
  match op with
  | some (.arr l) =>
    if l.isEmpty then fallbackBidAsk data
    else
      match oc with
      | some (.arr lo) =>
        match lo.findIdx? (fun v => match v with | .str s => s == "Yes" | _ => false) with
        | some i =>
          match l.get? i with
          | some v =>
            match pyFloatE v with
            | .ok p => p
            | .error .valueError => defaultFirstPrice l
            | .error .typeError => 0.5
          | none => defaultFirstPrice l
        | none => defaultFirstPrice l
      | _ => defaultFirstPrice l
  | _ => fallbackBidAsk data

/-- `bot/scanner.py::_parse_market`.  String-typed Market fields take the
selected value's text; non-string feed values (which Python would store
as-is, untyped) are rendered by `pyStr` — no claim depends on that case. -/
def parseMarket (data : JValue) : Option Market :=
  if ¬ pyTruthy (jGetD data ("id")) then none
  else
    match parseEndDate (pyOr (jGetD data ("endDate")) (jGetD data ("end_date"))) with
    | .error _ => none
    | .ok endDate =>
      some
        { id := pyStr (jGetD data ("id"))
          title := pyStr (pyOr (jGetD data ("question")) (pyOr (jGetD data ("title")) (.str "Unknown Market")))
          description := pyStr (pyOr (jGetD data ("description")) (pyOr (jGetD data ("question")) (.str "")))
          probability := extractProbability data
          liquidity := safeFloat (jGetD data ("liquidity")) 0
          endDate := endDate
          slug := pyStr ((jGet data ("slug")).getD (.str ""))
          category := pyStr ((jGet data ("category")).getD (.str ""))
          volume24h :=
            safeFloat
              (pyOr (jGetD data ("volume24h"))
                (pyOr (jGetD data ("volume_24h")) (jGetD data ("volume24hr")))) 0 }

/-- C7 counterexample: an API entry with outcome price `"1.5"` ingests to a
Market whose probability is `1.5 ∉ [0, 1]` — nothing clamps it. -/
theorem parseMarket_unclamped_cex :
    (parseMarket
        (JValue.obj
          [("id", JValue.str "m1"),
           ("outcomePrices", JValue.arr [JValue.str "1.5"])])).map Market.probability =
      some (3 / 2) ∧
    ¬ ((3 : ℚ) / 2 ≤ 1) := by
  constructor
  · simp +decide [parseMarket, jGetD, jGet, assocFind, pyOr, pyTruthy, parseEndDate,
      extractProbability, jsonNormalize, defaultFirstPrice, fallbackBidAsk, pyFloatE,
      parseFloat, stripChars, splitSign, splitFirst, parseMantissa, parseDigits, fracVal,
      digitVal, isWs, List.rdropWhile, safeFloat, pyStr]
    norm_num
  · norm_num

/-- C7 (amended): ingestion stores the extracted probability *unclamped* —
for every raw entry that parses, `probability` is exactly
`_extract_probability`'s value, which defaults to 0.5 when no price
information is present but is not restricted to `[0, 1]` (see the
counterexample, where it is 1.5). -/
theorem parseMarket_probability_spec :
    (∀ (data : JValue) (m : Market), parseMarket data = some m →
      m.probability = extractProbability data) ∧
    (∀ data : JValue, jGet data ("outcomePrices") = none → jGet data ("bestBid") = none →
      extractProbability data = 0.5) := by
  constructor
  · intro data m h
    unfold parseMarket at h
    split at h
    · exact absurd h (by simp)
    · split at h
      · exact absurd h (by simp)
      · obtain rfl := Option.some.inj h
        rfl
  · intro data h1 h2
    unfold extractProbability jsonNormalize
    rw [h1]
    show fallbackBidAsk data = 0.5
    unfold fallbackBidAsk
    rw [h2]

/-- Witness for C7's amended theorem: an entry with only an `id` parses,
its probability equals the extractor's output, and the empty payload
extracts the 0.5 default. -/
theorem parseMarket_probability_spec_witness :
    Market.probability
        { id := "m1", title := "Unknown Market", description := "", probability := 0.5,
          liquidity := 0, endDate := none, slug := "", category := "", volume24h := 0 } =
      extractProbability (JValue.obj [("id", JValue.str "m1")]) ∧
    extractProbability (JValue.obj []) = 0.5 :=
  ⟨parseMarket_probability_spec.1 (JValue.obj [("id", JValue.str "m1")]) _ rfl,
   parseMarket_probability_spec.2 (JValue.obj []) rfl rfl⟩

/-! ### Ranker (`bot/ranker.py`) -/

/-- Scoring weights (`bot/ranker.py` lines 45-48). -/
def EDGE_WEIGHT : ℚ := 0.40

/-- Confidence weight. -/
def CONFIDENCE_WEIGHT : ℚ := 0.30

/-- Liquidity weight. -/
def LIQUIDITY_WEIGHT : ℚ := 0.20

/-- Time weight. -/
def TIME_WEIGHT : ℚ := 0.10

/-- `bot/ranker.py::_calculate_edge_score`: `min(1.0, abs(edge) / 0.20)`. -/
def calculateEdgeScore (edge : ℚ) : ℚ := min 1 (|edge| / 0.20)

/-- `bot/ranker.py::_calculate_confidence_score`: `max(0.0, min(1.0, c))`. -/
def calculateConfidenceScore (confidence : ℚ) : ℚ := max 0 (min 1 confidence)

/-- `bot/ranker.py::_calculate_liquidity_score`:
`0 if liquidity <= 0 else clamp(log10(liquidity/1000)/2, 0, 1)` (the
`except` branch is unreachable for positive liquidity). -/
noncomputable def calculateLiquidityScore (liquidity : ℚ) : ℝ :=
  if liquidity ≤ 0 then 0
  else max 0 (min 1 (Real.logb 10 ((liquidity : ℝ) / 1000) / 2))

/-- `bot/ranker.py::_calculate_time_score`. -/
def calculateTimeScore (now : ℚ) (endDate : Option ℚ) : ℚ :=
  match endDate with
  | none => 0.5
  | some ed =>
    if ed ≤ now then 0
    else
      let days := (ed - now) / 86400
      if 7 ≤ days ∧ days ≤ 30 then 1
      else if 1 ≤ days ∧ days < 7 then 0.5 + (days - 1) / 6 * 0.5
      else if 30 < days ∧ days ≤ 90 then 1 - (days - 30) / 60 * 0.5
      else 0

/-- Python `str.upper()`. -/
def pyUpper (s : String) : String := ⟨s.data.map Char.toUpper⟩

/-- `bot/ranker.py::_generate_explanation` builds a float-formatted
human-readable string; the float rendering is not modelled (no claim
concerns the explanation text), but the derived direction and uppercased
decision word are kept. -/
def generateExplanation (decision : Decision) : String :=
  (if decision.edge > 0 then "overpriced" else "underpriced") ++ " | " ++
    pyUpper decision.decision

/-- `bot/ranker.py::RankedOpportunity`. -/
structure RankedOpportunity where
  market : Market
  decision : Decision
  score : ℝ
  edgeScore : ℚ
  confidenceScore : ℚ
  liquidityScore : ℝ
  timeScore : ℚ
  explanation : String

/-- The opportunity built for one accepted decision
(`rank_opportunities` lines 92-126): the four component scores and the
weighted composite `edge*0.40 + confidence*0.30 + liquidity*0.20 +
time*0.10`. -/
noncomputable def mkOpportunity (now : ℚ) (market : Market) (decision : Decision) :
    RankedOpportunity :=
  let edgeScore := calculateEdgeScore decision.edge
  let confidenceScore := calculateConfidenceScore decision.confidenceLevel
  let liquidityScore := calculateLiquidityScore market.liquidity
  let timeScore := calculateTimeScore now market.endDate
  { market := market
    decision := decision
    score := (edgeScore : ℝ) * (EDGE_WEIGHT : ℝ) + (confidenceScore : ℝ) * (CONFIDENCE_WEIGHT : ℝ) +
      liquidityScore * (LIQUIDITY_WEIGHT : ℝ) + (timeScore : ℝ) * (TIME_WEIGHT : ℝ)
    edgeScore := edgeScore
    confidenceScore := confidenceScore
    liquidityScore := liquidityScore
    timeScore := timeScore
    explanation := generateExplanation decision }

/-- The `markets` dict of `rank_opportunities`, as an association list with
dict semantics (last binding wins). -/
def lookupMarket (key : String) : List (String × Market) → Option Market
  | [] => none
  | (k, v) :: rest =>
    match lookupMarket key rest with
    | some v' => some v'
    | none => if k == key then some v else none

/-- The accepted opportunities in input order (`rank_opportunities` lines
74-128): skip a decision whose market is missing, whose `|edge|` is below
`min_edge` (default 0.05), or whose decision is `"pass"`. -/
noncomputable def acceptedOpportunities (now : ℚ) (decisions : List Decision)
    (markets : List (String × Market)) (minEdge : ℚ) : List RankedOpportunity :=
  decisions.filterMap (fun d =>
    match lookupMarket d.marketId markets with
    | none => none
    | some mk =>
      if |d.edge| < minEdge then none
      else if d.decision = "pass" then none
      else some (mkOpportunity now mk d))

/-- The decidable instance behind the sort comparison on real scores. -/
noncomputable instance : DecidableRel (fun a b : RankedOpportunity => b.score ≤ a.score) :=
  fun a b => inferInstanceAs (Decidable (b.score ≤ a.score))

instance : IsTotal RankedOpportunity (fun a b => b.score ≤ a.score) :=
  ⟨fun a b => le_total b.score a.score⟩

instance : IsTrans RankedOpportunity (fun a b => b.score ≤ a.score) :=
  ⟨fun a b c hab hbc => le_trans hbc hab⟩

/-- `bot/ranker.py::rank_opportunities`: build the accepted list, then
`opportunities.sort(key=..., reverse=True)` — Python's stable sort in
descending score order, which a stable insertion sort on `score ≥` models
exactly (sortedness, stability and permutation determine the result). -/
noncomputable def rankOpportunities (now : ℚ) (decisions : List Decision)
    (markets : List (String × Market)) (minEdge : ℚ) : List RankedOpportunity :=
  List.insertionSort (fun a b => b.score ≤ a.score)
    (acceptedOpportunities now decisions markets minEdge)

/-- Filtering commutes with `orderedInsert` when the filter keeps the
inserted element and rejects everything it is inserted past. -/
theorem filter_orderedInsert_pos {α : Type} (r : α → α → Prop) [DecidableRel r]
    (p : α → Bool) (x : α) (hx : p x = true)
    (h : ∀ y, ¬r x y → p y = false) :
    ∀ l : List α, (l.orderedInsert r x).filter p = x :: l.filter p := by
  intro l
  induction l with
  | nil => simp [hx]
  | cons y ys ih =>
    by_cases hr : r x y
    · rw [List.orderedInsert_of_le _ _ hr]
      simp [hx]
    · rw [List.orderedInsert, if_neg hr, List.filter_cons, h y hr, ih]
      simp [List.filter_cons, h y hr]

/-- Filtering ignores an inserted element the filter rejects. -/
theorem filter_orderedInsert_neg {α : Type} (r : α → α → Prop) [DecidableRel r]
    (p : α → Bool) (x : α) (hx : p x = false) :
    ∀ l : List α, (l.orderedInsert r x).filter p = l.filter p := by
  intro l
  induction l with
  | nil => simp [hx]
  | cons y ys ih =>
    by_cases hr : r x y
    · rw [List.orderedInsert_of_le _ _ hr]
      simp [hx]
    · rw [List.orderedInsert, if_neg hr, List.filter_cons, List.filter_cons, ih]

/-- Insertion sort is stable: it preserves the subsequence picked out by
any predicate that is constant on "ties" (rejects everything an accepted
element may be inserted past). -/
theorem filter_insertionSort {α : Type} (r : α → α → Prop) [DecidableRel r]
    (p : α → Bool) (h : ∀ x y, p x = true → ¬r x y → p y = false) :
    ∀ l : List α, (l.insertionSort r).filter p = l.filter p := by
  intro l
  induction l with
  | nil => rfl
  | cons x xs ih =>
    show ((List.insertionSort r xs).orderedInsert r x).filter p = _
    cases hpx : p x with
    | true =>
      rw [filter_orderedInsert_pos r p x hpx (fun y => h x y hpx), ih, List.filter_cons, hpx]
      simp
    | false =>
      rw [filter_orderedInsert_neg r p x hpx, ih, List.filter_cons, hpx]
      simp

/-- The score of every accepted opportunity is the documented formula. -/
theorem acceptedOpportunities_score (now : ℚ) (decisions : List Decision)
    (markets : List (String × Market)) (minEdge : ℚ) :
    ∀ o ∈ acceptedOpportunities now decisions markets minEdge,
      o.score = 0.40 * min 1 (|(o.decision.edge : ℝ)| / 0.20) +
        0.30 * max 0 (min 1 (o.decision.confidenceLevel : ℝ)) +
        0.20 * (if o.market.liquidity ≤ 0 then (0 : ℝ)
          else max 0 (min 1 (Real.logb 10 ((o.market.liquidity : ℝ) / 1000) / 2))) +
        0.10 * (calculateTimeScore now o.market.endDate : ℝ) := by
  intro o ho
  obtain ⟨d, hd, hbuild⟩ := List.mem_filterMap.mp ho
  revert hbuild
  cases hlk : lookupMarket d.marketId markets with
  | none => intro hbuild; exact absurd hbuild (by simp)
  | some mk =>
    intro hbuild
    simp only [] at hbuild
    split_ifs at hbuild with h1 h2
    obtain rfl := Option.some.inj hbuild
    simp only [mkOpportunity]
    unfold calculateEdgeScore calculateConfidenceScore calculateLiquidityScore
      EDGE_WEIGHT CONFIDENCE_WEIGHT LIQUIDITY_WEIGHT TIME_WEIGHT
    push_cast
    ring

/-- C3: every ranked opportunity's score equals
`0.40*edge_score + 0.30*confidence_score + 0.20*liquidity_score +
0.10*time_score` with `edge_score = min(1, |edge|/0.20)`,
`confidence_score = clamp(confidence, 0, 1)` and
`liquidity_score = clamp(log10(liquidity/1000)/2, 0, 1)` (0 for
`liquidity ≤ 0`); and the output is the accepted list ordered by score
descending (a permutation, sorted, with every equal-score subsequence kept
in input order). -/
theorem rankOpportunities_spec (now : ℚ) (decisions : List Decision)
    (markets : List (String × Market)) (minEdge : ℚ) :
    (∀ o ∈ rankOpportunities now decisions markets minEdge,
      o.score = 0.40 * min 1 (|(o.decision.edge : ℝ)| / 0.20) +
        0.30 * max 0 (min 1 (o.decision.confidenceLevel : ℝ)) +
        0.20 * (if o.market.liquidity ≤ 0 then (0 : ℝ)
          else max 0 (min 1 (Real.logb 10 ((o.market.liquidity : ℝ) / 1000) / 2))) +
        0.10 * (calculateTimeScore now o.market.endDate : ℝ)) ∧
    (rankOpportunities now decisions markets minEdge).Pairwise
      (fun a b => b.score ≤ a.score) ∧
    (rankOpportunities now decisions markets minEdge).Perm
      (acceptedOpportunities now decisions markets minEdge) ∧
    (∀ s : ℝ,
      (rankOpportunities now decisions markets minEdge).filter
          (fun o => decide (o.score = s)) =
        (acceptedOpportunities now decisions markets minEdge).filter
          (fun o => decide (o.score = s))) := by
  refine ⟨?_, ?_, ?_, ?_⟩
  · intro o ho
    exact acceptedOpportunities_score now decisions markets minEdge o
      ((List.mem_insertionSort _).mp ho)
  · exact List.sorted_insertionSort _ _
  · exact List.perm_insertionSort _ _
  · intro s
    refine filter_insertionSort _ _ (fun x y hpx hnr => ?_) _
    have hxs : x.score = s := of_decide_eq_true hpx
    have hlt : x.score < y.score := not_le.mp hnr
    exact decide_eq_false (fun hys : y.score = s => absurd (hxs ▸ hys ▸ hlt) (lt_irrefl _))

/-- C4: a Decision contributes no RankedOpportunity exactly when its market
is missing from the lookup, `|edge| < min_edge`, or the decision is
`"pass"`; in particular, with the default `min_edge = 0.05`, a Decision
with `|edge| < 0.05` is excluded regardless of its confidence level. -/
theorem rankOpportunities_exclusion :
    (∀ (now minEdge : ℚ) (markets : List (String × Market)) (decisions : List Decision)
        (d : Decision),
      (∃ o ∈ rankOpportunities now (d :: decisions) markets minEdge, o.decision = d) ↔
        ¬(lookupMarket d.marketId markets = none ∨ |d.edge| < minEdge ∨
          d.decision = "pass")) ∧
    (∀ (now : ℚ) (markets : List (String × Market)) (decisions : List Decision)
        (d : Decision),
      d ∈ decisions → |d.edge| < 0.05 →
      ∀ o ∈ rankOpportunities now decisions markets 0.05, o.decision ≠ d) := by
  constructor
  · intro now minEdge markets decisions d
    constructor
    · rintro ⟨o, ho, hod⟩ hcond
      have ho' : o ∈ acceptedOpportunities now (d :: decisions) markets minEdge :=
        (List.mem_insertionSort _).mp ho
      obtain ⟨d', hd', hbuild⟩ := List.mem_filterMap.mp ho'
      revert hbuild
      cases hlk : lookupMarket d'.marketId markets with
      | none => intro hbuild; exact absurd hbuild (by simp)
      | some mk =>
        intro hbuild
        simp only [] at hbuild
        split_ifs at hbuild with h1 h2
        obtain rfl := Option.some.inj hbuild
        have hdd : d' = d := hod
        subst hdd
        rcases hcond with hc | hc | hc
        · rw [hlk] at hc; exact absurd hc (by simp)
        · exact h1 hc
        · exact h2 hc
    · intro hcond
      push_neg at hcond
      obtain ⟨hm, h1, h2⟩ := hcond
      obtain ⟨mk, hmk⟩ : ∃ mk, lookupMarket d.marketId markets = some mk := by
        cases hx : lookupMarket d.marketId markets with
        | none => exact absurd hx hm
        | some mk => exact ⟨mk, rfl⟩
      refine ⟨mkOpportunity now mk d, ?_, rfl⟩
      apply (List.mem_insertionSort _).mpr
      apply List.mem_filterMap.mpr
      refine ⟨d, List.mem_cons_self _ _, ?_⟩
      rw [hmk]
      simp only []
      rw [if_neg (not_lt.mpr h1), if_neg h2]
  · intro now markets decisions d hd hedge o ho hod
    have ho' : o ∈ acceptedOpportunities now decisions markets 0.05 :=
      (List.mem_insertionSort _).mp ho
    obtain ⟨d', hd', hbuild⟩ := List.mem_filterMap.mp ho'
    revert hbuild
    cases hlk : lookupMarket d'.marketId markets with
    | none => intro hbuild; exact absurd hbuild (by simp)
    | some mk =>
      intro hbuild
      simp only [] at hbuild
      split_ifs at hbuild with h1 h2
      obtain rfl := Option.some.inj hbuild
      have hdd : d' = d := hod
      subst hdd
      exact h1 hedge

/-- Witness for C4: a concrete Decision with `edge = 0` and high confidence
is excluded from the ranked output at the default threshold. -/
theorem rankOpportunities_exclusion_witness :
    |(Decision.edge
        { marketId := "m1", estimatedProbability := 0.5, confidenceLevel := 0.9, edge := 0,
          decision := "yes", keyRisks := [], reasoningSummary := "", createdAt := 0 })| <
      0.05 ∧
    ∀ o ∈ rankOpportunities 0
        [{ marketId := "m1", estimatedProbability := 0.5, confidenceLevel := 0.9, edge := 0,
           decision := "yes", keyRisks := [], reasoningSummary := "", createdAt := 0 }]
        [] 0.05,
      o.decision ≠
        { marketId := "m1", estimatedProbability := 0.5, confidenceLevel := 0.9, edge := 0,
          decision := "yes", keyRisks := [], reasoningSummary := "", createdAt := 0 } :=
  ⟨by norm_num,
   rankOpportunities_exclusion.2 0 [] _ _ (List.mem_singleton.mpr rfl) (by norm_num)⟩

/-- Witness for C3 at a one-decision input: the built opportunity is in the
ranked output and its score is the documented formula. -/
theorem rankOpportunities_spec_witness :
    (mkOpportunity 0
        { id := "m1", title := "t", description := "", probability := 0.5, liquidity := 0,
          endDate := none }
        { marketId := "m1", estimatedProbability := 0.7, confidenceLevel := 0.6, edge := 0.2,
          decision := "yes", keyRisks := [], reasoningSummary := "", createdAt := 0 }) ∈
      rankOpportunities 0
        [{ marketId := "m1", estimatedProbability := 0.7, confidenceLevel := 0.6, edge := 0.2,
           decision := "yes", keyRisks := [], reasoningSummary := "", createdAt := 0 }]
        [("m1",
          { id := "m1", title := "t", description := "", probability := 0.5, liquidity := 0,
            endDate := none })]
        0.05 ∧
    (mkOpportunity 0
        { id := "m1", title := "t", description := "", probability := 0.5, liquidity := 0,
          endDate := none }
        { marketId := "m1", estimatedProbability := 0.7, confidenceLevel := 0.6, edge := 0.2,
          decision := "yes", keyRisks := [], reasoningSummary := "", createdAt := 0 }).score =
      0.40 * min 1 (|(((mkOpportunity 0
          { id := "m1", title := "t", description := "", probability := 0.5, liquidity := 0,
            endDate := none }
          { marketId := "m1", estimatedProbability := 0.7, confidenceLevel := 0.6, edge := 0.2,
            decision := "yes", keyRisks := [], reasoningSummary := "",
            createdAt := 0 }).decision.edge : ℚ) : ℝ)| / 0.20) +
      0.30 * max 0 (min 1 (((mkOpportunity 0
          { id := "m1", title := "t", description := "", probability := 0.5, liquidity := 0,
            endDate := none }
          { marketId := "m1", estimatedProbability := 0.7, confidenceLevel := 0.6, edge := 0.2,
            decision := "yes", keyRisks := [], reasoningSummary := "",
            createdAt := 0 }).decision.confidenceLevel : ℝ))) +
      0.20 * (if (mkOpportunity 0
          { id := "m1", title := "t", description := "", probability := 0.5, liquidity := 0,
            endDate := none }
          { marketId := "m1", estimatedProbability := 0.7, confidenceLevel := 0.6, edge := 0.2,
            decision := "yes", keyRisks := [], reasoningSummary := "",
            createdAt := 0 }).market.liquidity ≤ 0 then (0 : ℝ)
        else max 0 (min 1 (Real.logb 10 (((mkOpportunity 0
            { id := "m1", title := "t", description := "", probability := 0.5, liquidity := 0,
              endDate := none }
            { marketId := "m1", estimatedProbability := 0.7, confidenceLevel := 0.6, edge := 0.2,
              decision := "yes", keyRisks := [], reasoningSummary := "",
              createdAt := 0 }).market.liquidity : ℝ) / 1000) / 2))) +
      0.10 * ((calculateTimeScore 0 (mkOpportunity 0
          { id := "m1", title := "t", description := "", probability := 0.5, liquidity := 0,
            endDate := none }
          { marketId := "m1", estimatedProbability := 0.7, confidenceLevel := 0.6, edge := 0.2,
            decision := "yes", keyRisks := [], reasoningSummary := "",
            createdAt := 0 }).market.endDate : ℚ) : ℝ) := by
  have hmem : (mkOpportunity 0
      { id := "m1", title := "t", description := "", probability := 0.5, liquidity := 0,
        endDate := none }
      { marketId := "m1", estimatedProbability := 0.7, confidenceLevel := 0.6, edge := 0.2,
        decision := "yes", keyRisks := [], reasoningSummary := "", createdAt := 0 }) ∈
      rankOpportunities 0
        [{ marketId := "m1", estimatedProbability := 0.7, confidenceLevel := 0.6, edge := 0.2,
           decision := "yes", keyRisks := [], reasoningSummary := "", createdAt := 0 }]
        [("m1",
          { id := "m1", title := "t", description := "", probability := 0.5, liquidity := 0,
            endDate := none })]
        0.05 := by
    apply (List.mem_insertionSort _).mpr
    apply List.mem_filterMap.mpr
    refine ⟨_, List.mem_singleton.mpr rfl, ?_⟩
    rw [show lookupMarket
        (Decision.marketId
          { marketId := "m1", estimatedProbability := 0.7, confidenceLevel := 0.6, edge := 0.2,
            decision := "yes", keyRisks := [], reasoningSummary := "", createdAt := 0 })
        [("m1",
          { id := "m1", title := "t", description := "", probability := 0.5, liquidity := 0,
            endDate := none })] =
      some
        { id := "m1", title := "t", description := "", probability := 0.5, liquidity := 0,
          endDate := none } from rfl]
    simp only []
    rw [if_neg (by rw [show |(0.2 : ℚ)| = 0.2 from abs_of_pos (by norm_num)]; norm_num),
      if_neg (by simp)]
  exact ⟨hmem,
    (rankOpportunities_spec 0 _ _ 0.05).1 _ hmem⟩

/-- Witness for C6 at a concrete payload with a padded item. -/
theorem validateEvidenceSchema_shape_witness :
    (validateEvidenceSchema
        (JValue.obj [("evidence_yes", JValue.arr [JValue.str " a "])])).evidenceYes = ["a"] ∧
    (validateEvidenceSchema
        (JValue.obj [("evidence_yes", JValue.arr [JValue.str " a "])])).recentDevelopments.length ≤
      20 ∧
    pyStrip ("a") = "a" ∧
    (validateEvidenceSchema
        (JValue.obj [("evidence_yes", JValue.arr [JValue.str " a "])])).sourceQuality ∈
      sourceQualityValues := by
  refine ⟨rfl, ?_, ?_, ?_⟩
  · exact (validateEvidenceSchema_shape
      (JValue.obj [("evidence_yes", JValue.arr [JValue.str " a "])])).1.1
  · refine (validateEvidenceSchema_shape
      (JValue.obj [("evidence_yes", JValue.arr [JValue.str " a "])])).2.1 ("a") ?_
    rw [show (validateEvidenceSchema
          (JValue.obj [("evidence_yes", JValue.arr [JValue.str " a "])])).recentDevelopments ++
        (validateEvidenceSchema
          (JValue.obj [("evidence_yes", JValue.arr [JValue.str " a "])])).evidenceYes ++
        (validateEvidenceSchema
          (JValue.obj [("evidence_yes", JValue.arr [JValue.str " a "])])).evidenceNo ++
        (validateEvidenceSchema
          (JValue.obj [("evidence_yes", JValue.arr [JValue.str " a "])])).officialSignals ++
        (validateEvidenceSchema
          (JValue.obj [("evidence_yes", JValue.arr [JValue.str " a "])])).timelineConstraints =
      ["a"] from rfl]
    exact List.mem_singleton.mpr rfl
  · exact (validateEvidenceSchema_shape
      (JValue.obj [("evidence_yes", JValue.arr [JValue.str " a "])])).2.2

/-! ### Scheduler (`bot/scheduler.py`) -/

/-- The scheduler state shared across ticks: the single-flight execution
lock (`threading.Lock`), the running flag, and whether a pipeline callable
is registered. -/
structure SchedState where
  lockHeld : Bool
  isRunning : Bool
  hasPipeline : Bool
deriving DecidableEq

/-- The outcome of one pipeline invocation inside a tick. -/
inductive TickOutcome where
  | ok (count : ℕ) : TickOutcome
  | noneResult : TickOutcome
  | error : TickOutcome
deriving DecidableEq

/-- `Scheduler._safe_execute_pipeline` (source lines 140-195): acquire the
lock non-blockingly — if already held, skip the tick entirely; otherwise
run the pipeline body (normal return, empty result, or exception) and
release the lock in the `finally` block regardless of the outcome.  The
returned flag says whether the tick actually executed. -/
def safeExecutePipeline (s : SchedState) (outcome : TickOutcome) : Bool × SchedState :=
  if s.lockHeld then (false, s)
  else
    let running := { s with lockHeld := true }
    let afterBody :=
      match outcome with
      | .ok _ => running
      | .noneResult => running
      | .error => running
    (true, { afterBody with lockHeld := false })

/-- `Scheduler.is_job_running` (source lines 230-237):
`return not self._execution_lock.acquire(blocking=False)`.  When the lock
is free this *acquires* it and never releases it. -/
def isJobRunning (s : SchedState) : Bool × SchedState :=
  if s.lockHeld then (true, s)
  else (false, { s with lockHeld := true })

/-- The fields of the status dict built by `Scheduler.get_status` that
depend on scheduler state (the next-run time lives in APScheduler, outside
this model). -/
structure SchedStatus where
  isRunning : Bool
  hasPipelineFunction : Bool
  jobRunning : Bool
deriving DecidableEq

/-- `Scheduler.get_status` (source lines 239-259): pure reads plus a call
to `is_job_running` — which mutates the lock. -/
def getStatus (s : SchedState) : SchedStatus × SchedState :=
  let (jr, s') := isJobRunning s
  ({ isRunning := s.isRunning, hasPipelineFunction := s.hasPipeline, jobRunning := jr }, s')

/-- C9: the tick half of the claim holds — a tick on a free lock executes
and ends with the lock released, even when the pipeline raises — but the
status-query half is violated by the code: on a fresh scheduler
`get_status` reports no job running yet *leaves the execution lock held*
(it acquires without releasing), so the very next tick is skipped, whereas
before the query it would have executed. -/
theorem scheduler_status_query_leaks_lock :
    ((safeExecutePipeline ⟨false, true, true⟩ .error).1 = true ∧
      (safeExecutePipeline ⟨false, true, true⟩ .error).2.lockHeld = false) ∧
    ((getStatus ⟨false, true, true⟩).1.jobRunning = false ∧
      (getStatus ⟨false, true, true⟩).2 ≠ ⟨false, true, true⟩ ∧
      (getStatus ⟨false, true, true⟩).2.lockHeld = true ∧
      (safeExecutePipeline ((getStatus ⟨false, true, true⟩).2) (.ok 1)).1 = false) := by
  decide

end PolyBot
